/-
  Verification of the smoke-detection core of this repository (patch
  statistics engine, detection decision engine, temporal frame buffer,
  monitor-phase frame comparison), as a shallow embedding in Lean 4.

  Modelling conventions:
  * A 3-D numeric array of shape (Nt, Ny, Nx) is embedded as a total function
    `ℕ → ℕ → ℕ → ℚ` together with its dimensions, which are passed explicitly
    to every operation that reads them from `.shape` in the source; theorems
    only ever constrain in-range indices.
  * numpy float32 arithmetic is modelled as exact rational arithmetic (ℚ);
    the discrepancies refuted below are sign/structure errors that are
    independent of floating-point rounding.
  * `np.abs` and Python's two-argument `min` are modelled by the conditional
    definitions `npAbs`/`npMin` (proved equal to Mathlib's `|·|`/`min`), and
    `np.sort` by a structurally recursive insertion sort, so that every
    embedded operation evaluates by kernel reduction.
  * Logging calls and the diagnostic arrays (`mt`, `mst`, `msxy`) computed by
    the detectors are value-irrelevant (they never influence the returned
    flag or map) and are omitted from the embedded decision functions.
-/
import Mathlib

/-- A (time, row, col)-indexed rational array, dimensions tracked separately. -/
abbrev Arr3 : Type := ℕ → ℕ → ℕ → ℚ

/-- A (row, col)-indexed rational array, dimensions tracked separately. -/
abbrev Arr2 : Type := ℕ → ℕ → ℚ

/-- `np.abs` on a scalar. -/
def npAbs (x : ℚ) : ℚ := if x < 0 then -x else x

/-- Python's built-in two-argument `min`. -/
def npMin (x y : ℚ) : ℚ := if x ≤ y then x else y

/-- Number of patches tiling an axis of length `n` with window `sw`:
`len(range(0, n - sw + 1, sw))` in the source. -/
def nPatches (n sw : ℕ) : ℕ := if sw ≤ n then (n - sw) / sw + 1 else 0

/-- The `sw × sw` block of frame `t` of a video whose top-left corner is
`(ii, jj)`, flattened to a list (as `ravel`/`axis=None` flattening does). -/
def patchList (v : Arr3) (t ii jj sw : ℕ) : List ℚ :=
  (List.range sw).flatMap (fun a => (List.range sw).map (fun b => v t (ii + a) (jj + b)))

/-- The `sw × sw` block of a single 2-D frame, flattened to a list. -/
def patch2List (img : Arr2) (ii jj sw : ℕ) : List ℚ :=
  (List.range sw).flatMap (fun a => (List.range sw).map (fun b => img (ii + a) (jj + b)))

/-- Insertion of an element into a sorted list (ascending). -/
def insertSorted (x : ℚ) : List ℚ → List ℚ
  | [] => [x]
  | y :: ys => if x ≤ y then x :: y :: ys else y :: insertSorted x ys

/-- `np.sort` on a flattened patch: the ascending sorted permutation. -/
def npSort (l : List ℚ) : List ℚ := l.foldr insertSorted []

/-- `np.linalg.norm(np.sort(a) - np.sort(b), 1)` resp. `np.sum(np.abs(a - b))`
after sorting: the L1 distance between the two sorted vectors. -/
def sortedL1 (a b : List ℚ) : ℚ :=
  ((npSort a).zipWith (fun x y => npAbs (x - y)) (npSort b)).sum

namespace PatchUtils

/-- `PatchUtils.compute_patches_ww_diff_all` (smoke/patch_utils.py): at each
output position `(t, i, j)` with `t < Nt - 1`, the minimum over `tt > t` of
the normalized sorted-L1 distance between patch `(i, j)` of frames `tt` and
`t`, folded from the source's initial `w_min = 100000000.0`. -/
def compute_patches_ww_diff_all (video : Arr3) (Nt sw : ℕ) : Arr3 :=
  fun t i j =>
    ((List.range (Nt - (t + 1))).map (fun s =>
      sortedL1 (patchList video (t + 1 + s) (i * sw) (j * sw) sw)
               (patchList video t (i * sw) (j * sw) sw) / ((sw : ℚ) ^ 2))).foldl
      (fun w_min d => npMin d w_min) 100000000

/-- `PatchUtils.compute_patches_mean`: per-frame, per-patch arithmetic mean
(`.mean()` of an `sw × sw` block divides by `sw²`). -/
def compute_patches_mean (video : Arr3) (sw : ℕ) : Arr3 :=
  fun t i j => (patchList video t (i * sw) (j * sw) sw).sum / ((sw : ℚ) ^ 2)

/-- `PatchUtils.compute_min_over_time`: elementwise `np.min` across the time
axis of an array with `Nt` time steps (meaningful for `Nt ≥ 1`). -/
def compute_min_over_time (Nt : ℕ) (vt : Arr3) : Arr2 :=
  fun i j => ((List.range Nt).map (fun t => vt t i j)).foldl npMin (vt 0 i j)

/-- `PatchUtils.time_derivative`: `st[k] = np.abs(sf[k+1] - sf[k])` (ws = 1),
output time length `Nt - 1`. -/
def time_derivative (sf : Arr3) : Arr3 := fun k i j => npAbs (sf (k + 1) i j - sf k i j)

/-- `PatchUtils.time_difference`: `st[k] = np.abs(sf[k+1] - sf[k])`, output
time length `Nt - 1`. -/
def time_difference (sf : Arr3) : Arr3 := fun k i j => npAbs (sf (k + 1) i j - sf k i j)

/-- `PatchUtils.video_spatial_difference`: per frame,
`sx[1:Ny-2] = (sf[2:Ny-1] - sf[0:Ny-3]) / 2` (so rows `1 .. Ny-3` get the
halved central difference and rows `0`, `Ny-2`, `Ny-1` stay zero), the
analogous `sy` on columns, combined as `0.5 * (|sx| + |sy|)`. -/
def video_spatial_difference (Ny Nx : ℕ) (sf : Arr3) : Arr3 :=
  fun k i j =>
    (1 / 2) *
      (npAbs (if 1 ≤ i ∧ i + 3 ≤ Ny then (sf k (i + 1) j - sf k (i - 1) j) / 2 else 0) +
       npAbs (if 1 ≤ j ∧ j + 3 ≤ Nx then (sf k i (j + 1) - sf k i (j - 1)) / 2 else 0))

/-- `PatchUtils.check_max_pix`: `np.sum(np.abs(f) > trsh)` over the whole
3-D array — the number of entries with `|value| > trsh` (strict). -/
def check_max_pix (Nt Ny Nx : ℕ) (f : Arr3) (trsh : ℚ) : ℕ :=
  ((List.range Nt).flatMap (fun t => (List.range Ny).flatMap (fun i =>
    (List.range Nx).map (fun j => f t i j)))).countP (fun x => decide (trsh < npAbs x))

end PatchUtils

/-- `_compute_patches_ww_diff_all_numba` (smoke/patch_utils_optimized.py):
same loop as the reference with `ii = i * sw`, `jj = j * sw`,
`d = np.sum(np.abs(np.sort(next.ravel()) - np.sort(curr.ravel()))) / ntot`. -/
def _compute_patches_ww_diff_all_numba (video : Arr3) (Nt sw : ℕ) : Arr3 :=
  fun t i j =>
    ((List.range (Nt - (t + 1))).map (fun s =>
      sortedL1 (patchList video (t + 1 + s) (i * sw) (j * sw) sw)
               (patchList video t (i * sw) (j * sw) sw) / ((sw : ℚ) ^ 2))).foldl
      (fun w_min d => npMin d w_min) 100000000

/-- `_compute_patches_mean_numba`: per-frame, per-patch `np.mean`. -/
def _compute_patches_mean_numba (video : Arr3) (sw : ℕ) : Arr3 :=
  fun t i j => (patchList video t (i * sw) (j * sw) sw).sum / ((sw : ℚ) ^ 2)

/-- `_compute_min_over_time_numba`: elementwise `np.min` across time. -/
def _compute_min_over_time_numba (Nt : ℕ) (vt : Arr3) : Arr2 :=
  fun i j => ((List.range Nt).map (fun t => vt t i j)).foldl npMin (vt 0 i j)

/-- `_time_derivative_numba`: `output[t] = sf[t+1] - sf[t]` — the signed
difference; unlike the reference it takes no absolute value. -/
def _time_derivative_numba (sf : Arr3) : Arr3 := fun t i j => sf (t + 1) i j - sf t i j

/-- `_time_difference_numba`: `output[t] = sf[t+1] - sf[t]` — the signed
difference; unlike the reference it takes no absolute value. -/
def _time_difference_numba (sf : Arr3) : Arr3 := fun t i j => sf (t + 1) i j - sf t i j

/-- `_video_spatial_difference_numba`: on the 1-pixel-border interior
(`1 ≤ i < Ny - 1`, `1 ≤ j < Nx - 1`), the Euclidean magnitude
`np.sqrt(dx*dx + dy*dy)` of the undivided central differences; zero on the
border. Real-valued because of the square root. -/
noncomputable def _video_spatial_difference_numba (Ny Nx : ℕ) (sf : Arr3) :
    ℕ → ℕ → ℕ → ℝ :=
  fun t i j =>
    if 1 ≤ i ∧ i + 2 ≤ Ny ∧ 1 ≤ j ∧ j + 2 ≤ Nx then
      Real.sqrt (((sf t i (j + 1) - sf t i (j - 1) : ℚ) : ℝ) ^ 2 +
                 ((sf t (i + 1) j - sf t (i - 1) j : ℚ) : ℝ) ^ 2)
    else 0

/-- `_check_max_pix_numba`: counts entries with `f[i,j,k] > trsh` — the raw
value, not its absolute value, unlike the reference. -/
def _check_max_pix_numba (Nt Ny Nx : ℕ) (f : Arr3) (trsh : ℚ) : ℕ :=
  ((List.range Nt).flatMap (fun t => (List.range Ny).flatMap (fun i =>
    (List.range Nx).map (fun j => f t i j)))).countP (fun x => decide (trsh < x))

namespace OptimizedPatchUtils

/-- `OptimizedPatchUtils.compute_patches_ww_diff_all` delegates to the numba kernel. -/
def compute_patches_ww_diff_all : Arr3 → ℕ → ℕ → Arr3 := _compute_patches_ww_diff_all_numba

/-- `OptimizedPatchUtils.compute_patches_mean` delegates to the numba kernel. -/
def compute_patches_mean : Arr3 → ℕ → Arr3 := _compute_patches_mean_numba

/-- `OptimizedPatchUtils.compute_min_over_time` delegates to the numba kernel. -/
def compute_min_over_time : ℕ → Arr3 → Arr2 := _compute_min_over_time_numba

/-- `OptimizedPatchUtils.time_derivative` delegates to the numba kernel. -/
def time_derivative : Arr3 → Arr3 := _time_derivative_numba

/-- `OptimizedPatchUtils.time_difference` delegates to the numba kernel. -/
def time_difference : Arr3 → Arr3 := _time_difference_numba

/-- `OptimizedPatchUtils.check_max_pix` delegates to the numba kernel. -/
def check_max_pix : ℕ → ℕ → ℕ → Arr3 → ℚ → ℕ := _check_max_pix_numba

end OptimizedPatchUtils

/-- The configuration fields consumed by the detectors
(utils/settings in the source). -/
structure Settings where
  sliding_window : ℕ
  sensitivity_val : ℚ
  motion_threshold : ℚ
  n_patches_validate : ℕ
  motion_count_threshold : ℕ
  verbose : ℕ

/-- The patch-utilities interface a detector instance holds in
`self.patch_utils` — only the operations that influence the returned value of
`check_video_for_smoke3b` (the others feed logging only). The source selects
the implementation by a try/except import at load time. -/
structure PatchUtilsAPI where
  compute_patches_ww_diff_all : Arr3 → ℕ → ℕ → Arr3
  compute_min_over_time : ℕ → Arr3 → Arr2
  time_difference : Arr3 → Arr3
  check_max_pix : ℕ → ℕ → ℕ → Arr3 → ℚ → ℕ

/-- The reference implementation (`smoke/patch_utils.py`, class PatchUtils)
packaged behind the dispatch interface. -/
def refPatchUtils : PatchUtilsAPI :=
  ⟨PatchUtils.compute_patches_ww_diff_all, PatchUtils.compute_min_over_time,
   PatchUtils.time_difference, PatchUtils.check_max_pix⟩

/-- The optimized implementation (`smoke/patch_utils_optimized.py`, class
OptimizedPatchUtils) packaged behind the dispatch interface. -/
def optPatchUtils : PatchUtilsAPI :=
  ⟨OptimizedPatchUtils.compute_patches_ww_diff_all, OptimizedPatchUtils.compute_min_over_time,
   OptimizedPatchUtils.time_difference, OptimizedPatchUtils.check_max_pix⟩

/-- `len(np.argwhere(m >= v))` over a `Py × Px` grid: the number of grid
positions whose value is `≥ v`. -/
def countGE (Py Px : ℕ) (m : Arr2) (v : ℚ) : ℕ :=
  ((List.range Py).flatMap (fun i => (List.range Px).map (fun j => m i j))).countP
    (fun x => decide (v ≤ x))

namespace OptimizedSmokeDetector

/-- `OptimizedSmokeDetector.check_video_for_smoke3b`
(smoke/smoke_detector_optimized.py): computes `wass_array`,
`st = time_difference(video)`, `motion_count = check_max_pix(st, motion_threshold)`
and `ws_min = min_over_time(wass_array)`; if `motion_count < motion_count_threshold`
it splits `wass_array` at `int(Nt2/2)` (`Nt2 = Nt - 1`), counts patches of each
half-minimum `≥ sensitivity_val` and sets the flag to 1 iff both counts exceed
`n_patches_validate`; otherwise the flag stays 0. `ws_min` is returned on both
paths. Parametrized over the patch-utilities implementation held in
`self.patch_utils`.

Before the gate, the source also unconditionally calls `report_movie_stats`
on the diagnostic arrays `mt` and `mst` (shape `(Nt-1, Py, Px)`) and `msxy`
(shape `(Nt, Py, Px)`). Those calls return no value and influence no returned
value, but they raise `ValueError` (`np.min` of a zero-size array) outside
the domains recorded by `diagnostics_ok_ref`/`diagnostics_ok_opt` below, so a
theorem about a concrete run of this model is accompanied by the fact that
its diagnostics succeed, and universal statements stay on that domain. -/
def check_video_for_smoke3b (pu : PatchUtilsAPI) (s : Settings) (Nt Ny Nx : ℕ)
    (video : Arr3) : ℕ × Arr2 :=
  if pu.check_max_pix (Nt - 1) Ny Nx (pu.time_difference video) s.motion_threshold <
      s.motion_count_threshold then
    (if s.n_patches_validate <
          countGE (nPatches Ny s.sliding_window) (nPatches Nx s.sliding_window)
            (pu.compute_min_over_time ((Nt - 1) / 2)
              (pu.compute_patches_ww_diff_all video Nt s.sliding_window))
            s.sensitivity_val ∧
        s.n_patches_validate <
          countGE (nPatches Ny s.sliding_window) (nPatches Nx s.sliding_window)
            (pu.compute_min_over_time ((Nt - 1) - (Nt - 1) / 2)
              (fun t i j =>
                pu.compute_patches_ww_diff_all video Nt s.sliding_window
                  ((Nt - 1) / 2 + t) i j))
            s.sensitivity_val
      then 1 else 0,
     pu.compute_min_over_time (Nt - 1) (pu.compute_patches_ww_diff_all video Nt s.sliding_window))
  else
    (0, pu.compute_min_over_time (Nt - 1) (pu.compute_patches_ww_diff_all video Nt s.sliding_window))

/-- The unconditional `report_movie_stats` diagnostics of
`check_video_for_smoke3b` succeed when `self.patch_utils` is the reference
`PatchUtils`: its `report_movie_stats` reduces the interior slice
`f[:, 1:-2, 1:-2]` with `np.min`, which raises `ValueError` on a zero-size
slice. With `mt`/`mst` of shape `(Nt-1, Py, Px)` and `msxy` of shape
`(Nt, Py, Px)` this requires `Nt ≥ 2` and both patch-grid axes `≥ 4`
(an axis of length `L` sliced `1:-2` is nonempty iff `L ≥ 4`). -/
def diagnostics_ok_ref (s : Settings) (Nt Ny Nx : ℕ) : Prop :=
  2 ≤ Nt ∧ 4 ≤ nPatches Ny s.sliding_window ∧ 4 ≤ nPatches Nx s.sliding_window

/-- The same diagnostics succeed when `self.patch_utils` is
`OptimizedPatchUtils`: its `report_movie_stats` reduces the whole array with
`.min()`, which raises only on a zero-size array, so `mt`/`mst`/`msxy` of
shapes `(Nt-1, Py, Px)` and `(Nt, Py, Px)` need `Nt ≥ 2` and nonempty
patch-grid axes. -/
def diagnostics_ok_opt (s : Settings) (Nt Ny Nx : ℕ) : Prop :=
  2 ≤ Nt ∧ 1 ≤ nPatches Ny s.sliding_window ∧ 1 ≤ nPatches Nx s.sliding_window

end OptimizedSmokeDetector

namespace SmokeDetector

/-- `SmokeDetector.check_video_for_smoke3b` (smoke/smoke_detector_no_motion.py):
the original decision function. It has no motion gate, and the whole
split-window validation together with the `return csw, ws_min` statement sits
inside `if self.settings.verbose > 1:`; when `verbose ≤ 1` the function falls
off the end and returns `None`. Its `self.patch_utils` resolves to
`OptimizedPatchUtils` when numba imports and `PatchUtils` otherwise; the two
agree definitionally on every operation used here (`compute_patches_ww_diff_all`
and `compute_min_over_time`), so the reference functions are used. -/
def check_video_for_smoke3b (s : Settings) (Nt Ny Nx : ℕ) (video : Arr3) :
    Option (ℕ × Arr2) :=
  if 1 < s.verbose then
    some
      (if s.n_patches_validate <
            countGE (nPatches Ny s.sliding_window) (nPatches Nx s.sliding_window)
              (PatchUtils.compute_min_over_time ((Nt - 1) / 2)
                (PatchUtils.compute_patches_ww_diff_all video Nt s.sliding_window))
              s.sensitivity_val ∧
          s.n_patches_validate <
            countGE (nPatches Ny s.sliding_window) (nPatches Nx s.sliding_window)
              (PatchUtils.compute_min_over_time ((Nt - 1) - (Nt - 1) / 2)
                (fun t i j =>
                  PatchUtils.compute_patches_ww_diff_all video Nt s.sliding_window
                    ((Nt - 1) / 2 + t) i j))
              s.sensitivity_val
        then 1 else 0,
       PatchUtils.compute_min_over_time (Nt - 1)
         (PatchUtils.compute_patches_ww_diff_all video Nt s.sliding_window))
  else none

/-- `SmokeDetector.compare_frames_ww` (smoke/smoke_detector_no_motion.py):
per patch `d = np.linalg.norm(np.sort(curr) - np.sort(ref), 1) / ntot`, the
flag is raised as soon as some patch has `d > sensitivity`, and every pixel of
the patch region of the output panel is set to `d` (pixels outside the tiled
region keep the `np.zeros_like` value 0). -/
def compare_frames_ww (Ny Nx : ℕ) (ref_img curr_img : Arr2) (sensitivity : ℚ)
    (sw : ℕ) : ℕ × Arr2 :=
  (if (List.range (nPatches Ny sw)).any (fun i =>
        (List.range (nPatches Nx sw)).any (fun j =>
          decide (sensitivity <
            sortedL1 (patch2List curr_img (i * sw) (j * sw) sw)
              (patch2List ref_img (i * sw) (j * sw) sw) / ((sw : ℚ) ^ 2))))
    then 1 else 0,
   fun y x =>
     if y / sw < nPatches Ny sw ∧ x / sw < nPatches Nx sw then
       sortedL1 (patch2List curr_img (y / sw * sw) (x / sw * sw) sw)
         (patch2List ref_img (y / sw * sw) (x / sw * sw) sw) / ((sw : ℚ) ^ 2)
     else 0)

/-- `SmokeDetector.compare_frames_mean`: per patch
`d = np.abs(curr_patch.mean() - ref_patch.mean())`, same flag and panel-fill
semantics as `compare_frames_ww`. -/
def compare_frames_mean (Ny Nx : ℕ) (ref_img curr_img : Arr2) (sensitivity : ℚ)
    (sw : ℕ) : ℕ × Arr2 :=
  (if (List.range (nPatches Ny sw)).any (fun i =>
        (List.range (nPatches Nx sw)).any (fun j =>
          decide (sensitivity <
            npAbs ((patch2List curr_img (i * sw) (j * sw) sw).sum / ((sw : ℚ) ^ 2) -
              (patch2List ref_img (i * sw) (j * sw) sw).sum / ((sw : ℚ) ^ 2)))))
    then 1 else 0,
   fun y x =>
     if y / sw < nPatches Ny sw ∧ x / sw < nPatches Nx sw then
       npAbs ((patch2List curr_img (y / sw * sw) (x / sw * sw) sw).sum / ((sw : ℚ) ^ 2) -
         (patch2List ref_img (y / sw * sw) (x / sw * sw) sw).sum / ((sw : ℚ) ^ 2))
     else 0)

end SmokeDetector

/-- `_compare_frames_ww_numba` (smoke/smoke_detector_optimized.py):
`d = np.sum(np.abs(np.sort(curr.ravel()) - np.sort(ref.ravel()))) / ntot`,
same patch loop, flag and panel-fill as the reference method. -/
def _compare_frames_ww_numba (Ny Nx : ℕ) (ref_img curr_img : Arr2)
    (sensitivity : ℚ) (sw : ℕ) : ℕ × Arr2 :=
  (if (List.range (nPatches Ny sw)).any (fun i =>
        (List.range (nPatches Nx sw)).any (fun j =>
          decide (sensitivity <
            sortedL1 (patch2List curr_img (i * sw) (j * sw) sw)
              (patch2List ref_img (i * sw) (j * sw) sw) / ((sw : ℚ) ^ 2))))
    then 1 else 0,
   fun y x =>
     if y / sw < nPatches Ny sw ∧ x / sw < nPatches Nx sw then
       sortedL1 (patch2List curr_img (y / sw * sw) (x / sw * sw) sw)
         (patch2List ref_img (y / sw * sw) (x / sw * sw) sw) / ((sw : ℚ) ^ 2)
     else 0)

/-- `_compare_frames_mean_numba` (smoke/smoke_detector_optimized.py):
`d = np.abs(np.mean(curr_patch) - np.mean(ref_patch))`, same loop, flag and
panel-fill as the reference method. -/
def _compare_frames_mean_numba (Ny Nx : ℕ) (ref_img curr_img : Arr2)
    (sensitivity : ℚ) (sw : ℕ) : ℕ × Arr2 :=
  (if (List.range (nPatches Ny sw)).any (fun i =>
        (List.range (nPatches Nx sw)).any (fun j =>
          decide (sensitivity <
            npAbs ((patch2List curr_img (i * sw) (j * sw) sw).sum / ((sw : ℚ) ^ 2) -
              (patch2List ref_img (i * sw) (j * sw) sw).sum / ((sw : ℚ) ^ 2)))))
    then 1 else 0,
   fun y x =>
     if y / sw < nPatches Ny sw ∧ x / sw < nPatches Nx sw then
       npAbs ((patch2List curr_img (y / sw * sw) (x / sw * sw) sw).sum / ((sw : ℚ) ^ 2) -
         (patch2List ref_img (y / sw * sw) (x / sw * sw) sw).sum / ((sw : ℚ) ^ 2))
     else 0)

namespace GrayscaleBuffer

/-- The per-camera state of `GrayscaleBuffer` (processing/grayscale_buffer.py):
a camera-id-indexed family of deques, each capped at `maxlen`. A camera's
entry is `none` until its first `add_frame` creates the deque. Frames are
abstract here: the resize/`astype(np.float32)` normalization maps each pushed
frame independently and does not affect buffer length or order, which is what
the buffer claims concern. -/
structure State (α : Type) where
  buffers : String → Option (List α)
  maxlen : ℕ

/-- A fresh `GrayscaleBuffer(maxlen=N)`: no per-camera deque exists yet. -/
def empty (α : Type) (N : ℕ) : State α := ⟨fun _ => none, N⟩

/-- `collections.deque(maxlen=m).append`: append on the right; if the result
exceeds `m` elements, surplus elements are discarded from the left. -/
def dequeAppend (m : ℕ) (l : List α) (x : α) : List α :=
  (l ++ [x]).drop ((l ++ [x]).length - m)

/-- `GrayscaleBuffer.add_frame`: create the camera's deque on first use, then
append the (normalized) frame, evicting from the left at capacity. -/
def add_frame (B : State α) (camera_id : String) (frame : α) : State α :=
  { B with
    buffers := fun c =>
      if c = camera_id then
        some (dequeAppend B.maxlen ((B.buffers camera_id).getD []) frame)
      else B.buffers c }

/-- `GrayscaleBuffer.get_sequence`: `None` when the camera has no deque or the
deque holds fewer than `maxlen` frames; otherwise the stacked copy of the
deque's contents, oldest first. -/
def get_sequence (B : State α) (camera_id : String) : Option (List α) :=
  match B.buffers camera_id with
  | none => none
  | some l => if l.length = B.maxlen then some l else none

/-- Pushing a whole list of frames for one camera, oldest first. -/
def push_all (B : State α) (camera_id : String) (frames : List α) : State α :=
  frames.foldl (fun b f => add_frame b camera_id f) B

end GrayscaleBuffer

/-- Folding a whole frame list into a capped deque: the per-camera list-level
effect of repeated `GrayscaleBuffer.add_frame` for one camera. -/
def pushListFrames {α : Type} (m : ℕ) (l fs : List α) : List α :=
  fs.foldl (GrayscaleBuffer.dequeAppend m) l

/-- Rebuilding a configuration with a new `motion_count_threshold`, all other
fields unchanged. -/
def setMotionCountThreshold (s : Settings) (τ : ℕ) : Settings :=
  ⟨s.sliding_window, s.sensitivity_val, s.motion_threshold, s.n_patches_validate,
   τ, s.verbose⟩

/-! ### Concrete inputs used in counterexamples and witnesses -/

/-- A video (spatially constant, usable at any dimensions, which are passed
separately) whose pixels all drop from 10 to 0 after frame 0: its
consecutive-frame differences are negative, which separates the signed
optimized motion statistics from the absolute-valued reference ones. -/
def vSpike : Arr3 := fun t _ _ => if t = 0 then 10 else 0

/-- Configuration: `sliding_window = 1`, `sensitivity_val = 0`,
`motion_threshold = 5`, `n_patches_validate = 0`, `motion_count_threshold = 1`,
`verbose = 0`. -/
def sSpike : Settings := ⟨1, 0, 5, 0, 1, 0⟩

/-- The all-zero video. -/
def vZero : Arr3 := fun _ _ _ => 0

/-- Like `sSpike` but with `motion_count_threshold = 0`, so the motion gate
always fires (`motion_count ≥ 0`). -/
def sGate : Settings := ⟨1, 0, 5, 0, 0, 0⟩

/-- Like `sSpike` but with `verbose = 2`. -/
def sVerbose2 : Settings := ⟨1, 0, 5, 0, 1, 2⟩

/-- A constant-in-time array with a single entry of value −5. -/
def fNeg : Arr3 := fun _ _ _ => -5

/-- A 1×1-pixel signal stepping from 5 down to 2 after frame 0. -/
def sfDrop : Arr3 := fun t _ _ => if t = 0 then 5 else 2

/-- A 4×4 frame with pixel value `4*i + j` (constant in time). -/
def vRamp4 : Arr3 := fun _ i j => ((4 * i + j : ℕ) : ℚ)

/-! ### Bridge lemmas between executable model primitives and Mathlib order/algebra -/

theorem npAbs_eq_abs (x : ℚ) : npAbs x = |x| := by
  unfold npAbs
  rcases lt_or_le x 0 with h | h
  · rw [if_pos h, abs_of_neg h]
  · rw [if_neg (not_lt.mpr h), abs_of_nonneg h]

theorem npMin_eq_min (x y : ℚ) : npMin x y = min x y := by
  unfold npMin
  rcases le_or_lt x y with h | h
  · rw [if_pos h, min_eq_left h]
  · rw [if_neg (not_le.mpr h), min_eq_right h.le]

theorem npAbs_sub_comm (x y : ℚ) : npAbs (x - y) = npAbs (y - x) := by
  rw [npAbs_eq_abs, npAbs_eq_abs, abs_sub_comm]

theorem zipWith_npAbs_sub_comm :
    ∀ (xs ys : List ℚ),
      xs.zipWith (fun x y => npAbs (x - y)) ys = ys.zipWith (fun x y => npAbs (x - y)) xs
  | [], ys => by cases ys <;> rfl
  | x :: xs, [] => rfl
  | x :: xs, y :: ys => by
      simp only [List.zipWith, zipWith_npAbs_sub_comm xs ys, npAbs_sub_comm x y]

/-- The sorted-L1 patch distance is symmetric in its two patches. -/
theorem sortedL1_comm (a b : List ℚ) : sortedL1 a b = sortedL1 b a := by
  unfold sortedL1
  rw [zipWith_npAbs_sub_comm]

/-- The left fold of Python `min` over the values of `f` on `0, …, n-1`,
seeded with `f 0`, is the finite infimum of `f` over `Finset.range n`. -/
theorem foldl_npMin_map_range (f : ℕ → ℚ) :
    ∀ (n : ℕ) (hn : 0 < n),
      ((List.range n).map f).foldl npMin (f 0) =
        (Finset.range n).inf' ⟨0, Finset.mem_range.mpr hn⟩ f := by
  intro n
  induction n with
  | zero => intro hn; exact absurd hn (by omega)
  | succ n ih =>
    intro _
    rcases Nat.eq_zero_or_pos n with h0 | hpos
    · subst h0
      simp [List.range_succ, Finset.range_one, Finset.inf'_singleton, npMin]
    · rw [List.range_succ, List.map_append, List.foldl_append, ih hpos]
      simp only [List.map_cons, List.map_nil, List.foldl_cons, List.foldl_nil]
      have key : (Finset.range (n + 1)).inf' ⟨0, Finset.mem_range.mpr (by omega)⟩ f
          = f n ⊓ (Finset.range n).inf' ⟨0, Finset.mem_range.mpr hpos⟩ f := by
        have hins : Finset.range (n + 1) = insert n (Finset.range n) := Finset.range_succ
        simp only [hins]
        exact Finset.inf'_insert ⟨0, Finset.mem_range.mpr hpos⟩ f
      rw [key, npMin_eq_min, min_comm]

/-- Counting with a Boolean predicate over the listed values of `f` on
`0, …, n-1` agrees with the cardinality of the corresponding filter. -/
theorem countP_map_range (p : ℚ → Bool) (f : ℕ → ℚ) :
    ∀ (n : ℕ),
      ((List.range n).map f).countP p =
        ((Finset.range n).filter (fun i => p (f i) = true)).card := by
  intro n
  induction n with
  | zero => rfl
  | succ n ih =>
    rw [List.range_succ, List.map_append, List.countP_append, ih]
    rw [Finset.range_succ, Finset.filter_insert]
    by_cases hp : p (f n) = true
    · rw [if_pos hp,
        Finset.card_insert_of_not_mem (fun hmem => by
          have := Finset.mem_of_mem_filter n hmem
          simp at this)]
      simp [hp]
    · rw [if_neg hp]
      simp [hp]

/-- `countGE` agrees with the cardinality of the set of grid positions whose
value is at least the threshold. -/
theorem countGE_eq_card (Py Px : ℕ) (m : Arr2) (v : ℚ) :
    countGE Py Px m v =
      (((Finset.range Py) ×ˢ (Finset.range Px)).filter (fun q => v ≤ m q.1 q.2)).card := by
  rw [Finset.card_filter, Finset.sum_product]
  induction Py with
  | zero => rfl
  | succ Py ih =>
    rw [Finset.sum_range_succ, ← ih]
    unfold countGE
    rw [List.range_succ, List.flatMap_append, List.countP_append]
    simp only [List.flatMap_cons, List.flatMap_nil, List.append_nil]
    congr 1
    rw [countP_map_range (fun x => decide (v ≤ x)) (fun j => m Py j) Px,
      Finset.card_filter]
    exact Finset.sum_congr rfl (fun j _ => by
      by_cases h : v ≤ m Py j <;> simp [h])

/-- Shifting an interval infimum down to an infimum over an initial segment. -/
theorem inf'_Ico_eq_shift (f : ℕ → ℚ) (k n : ℕ) (h : k < n) :
    (Finset.Ico k n).inf' ⟨k, Finset.mem_Ico.mpr ⟨le_refl k, h⟩⟩ f =
      (Finset.range (n - k)).inf' ⟨0, Finset.mem_range.mpr (by omega)⟩
        (fun t => f (k + t)) := by
  apply le_antisymm
  · apply Finset.le_inf'
    intro t ht
    exact Finset.inf'_le f (Finset.mem_Ico.mpr
      ⟨Nat.le_add_right k t, by have := Finset.mem_range.mp ht; omega⟩)
  · apply Finset.le_inf'
    intro x hx
    have hx' := Finset.mem_Ico.mp hx
    have hfx : f x = (fun t => f (k + t)) (x - k) := by
      simp only []
      congr 1
      omega
    rw [hfx]
    exact Finset.inf'_le (fun t => f (k + t))
      (Finset.mem_range.mpr (by omega))

/-- Appending to a deque below capacity keeps every element. -/
theorem dequeAppend_of_lt {α : Type} (m : ℕ) (l : List α) (x : α)
    (h : l.length < m) : GrayscaleBuffer.dequeAppend m l x = l ++ [x] := by
  unfold GrayscaleBuffer.dequeAppend
  have h0 : (l ++ [x]).length - m = 0 := by
    rw [List.length_append]
    simp
    omega
  rw [h0, List.drop_zero]

/-- Appending to a deque at capacity evicts exactly the oldest element. -/
theorem dequeAppend_of_full {α : Type} (m : ℕ) (l : List α) (x : α)
    (hm : 0 < m) (h : l.length = m) :
    GrayscaleBuffer.dequeAppend m l x = l.drop 1 ++ [x] := by
  unfold GrayscaleBuffer.dequeAppend
  have h1 : (l ++ [x]).length - m = 1 := by
    rw [List.length_append]
    simp
    omega
  rw [h1, List.drop_append_of_le_length (by omega)]

/-- Pushing a frame list that fits within capacity retains it entirely. -/
theorem pushListFrames_of_le {α : Type} (m : ℕ) :
    ∀ (fs l : List α), l.length + fs.length ≤ m → pushListFrames m l fs = l ++ fs
  | [], l, _ => by simp [pushListFrames]
  | f :: fs, l, h => by
      have hlt : l.length < m := by
        simp only [List.length_cons] at h
        omega
      have hrec := pushListFrames_of_le m fs (l ++ [f]) (by
        simp only [List.length_append, List.length_cons, List.length_nil] at h ⊢
        omega)
      show pushListFrames m (GrayscaleBuffer.dequeAppend m l f) fs = l ++ f :: fs
      rw [dequeAppend_of_lt m l f hlt, hrec, List.append_assoc]
      rfl

/-- Splitting a final push off a push sequence. -/
theorem pushListFrames_snoc {α : Type} (m : ℕ) (l fs : List α) (g : α) :
    pushListFrames m l (fs ++ [g]) =
      GrayscaleBuffer.dequeAppend m (pushListFrames m l fs) g := by
  unfold pushListFrames
  rw [List.foldl_append]
  rfl

/-- `add_frame` leaves the capacity unchanged. -/
theorem add_frame_maxlen {α : Type} (B : GrayscaleBuffer.State α)
    (c : String) (f : α) : (GrayscaleBuffer.add_frame B c f).maxlen = B.maxlen := rfl

/-- `push_all` leaves the capacity unchanged. -/
theorem push_all_maxlen {α : Type} (c : String) :
    ∀ (fs : List α) (B : GrayscaleBuffer.State α),
      (GrayscaleBuffer.push_all B c fs).maxlen = B.maxlen
  | [], _ => rfl
  | f :: fs, B => push_all_maxlen c fs (GrayscaleBuffer.add_frame B c f)

/-- `add_frame` updates the pushed camera's deque by a capped append. -/
theorem add_frame_buffers_self {α : Type} (B : GrayscaleBuffer.State α)
    (c : String) (f : α) :
    (GrayscaleBuffer.add_frame B c f).buffers c =
      some (GrayscaleBuffer.dequeAppend B.maxlen ((B.buffers c).getD []) f) := by
  unfold GrayscaleBuffer.add_frame
  simp

/-- The per-camera contents after a sequence of pushes is the list-level fold
of capped appends. -/
theorem push_all_buffers_self {α : Type} (c : String) :
    ∀ (fs : List α) (B : GrayscaleBuffer.State α) (l : List α),
      B.buffers c = some l →
      (GrayscaleBuffer.push_all B c fs).buffers c =
        some (pushListFrames B.maxlen l fs)
  | [], _, _, h => h
  | f :: fs, B, l, h => by
      have h1 : (GrayscaleBuffer.add_frame B c f).buffers c =
          some (GrayscaleBuffer.dequeAppend B.maxlen l f) := by
        rw [add_frame_buffers_self, h]
        rfl
      exact push_all_buffers_self c fs (GrayscaleBuffer.add_frame B c f)
        (GrayscaleBuffer.dequeAppend B.maxlen l f) h1

/-- A nonempty push sequence starting from a fresh buffer: the camera's deque
is created on the first push and then folded as usual. -/
theorem push_all_from_empty {α : Type} (c : String) (N : ℕ) (f : α) (fs : List α) :
    (GrayscaleBuffer.push_all (GrayscaleBuffer.empty α N) c (f :: fs)).buffers c =
      some (pushListFrames N (GrayscaleBuffer.dequeAppend N [] f) fs) := by
  apply push_all_buffers_self c fs
  rw [add_frame_buffers_self]
  rfl

/-- Both branches of the optimized decision function return the same second
component: the full-sequence minimum map of the pairwise-distance array. -/
theorem check_video_for_smoke3b_snd (pu : PatchUtilsAPI) (s : Settings)
    (Nt Ny Nx : ℕ) (video : Arr3) :
    (OptimizedSmokeDetector.check_video_for_smoke3b pu s Nt Ny Nx video).2 =
      pu.compute_min_over_time (Nt - 1)
        (pu.compute_patches_ww_diff_all video Nt s.sliding_window) := by
  unfold OptimizedSmokeDetector.check_video_for_smoke3b
  split <;> rfl

/-- The reference and optimized implementations agree definitionally on the
pairwise-distance computation (their source bodies are the same algorithm). -/
theorem ref_opt_ww_eq :
    refPatchUtils.compute_patches_ww_diff_all = optPatchUtils.compute_patches_ww_diff_all := rfl

/-- The reference and optimized implementations agree definitionally on the
minimum-over-time computation. -/
theorem ref_opt_min_over_time_eq :
    refPatchUtils.compute_min_over_time = optPatchUtils.compute_min_over_time := rfl

/-- An `if`-packed flag equals 1 exactly when its condition holds. -/
theorem ite_one_zero_eq_one_iff {c : Prop} [Decidable c] :
    ((if c then (1 : ℕ) else 0) = 1) ↔ c := by
  by_cases h : c <;> simp [h]

/-! ### Claim theorems

The Batteries rational operations are `@[irreducible]` by default; they are
restored to normal reducibility so that concrete model runs evaluate inside
`decide`. -/

attribute [local semireducible] Rat.add Rat.sub Rat.mul Rat.inv

/-- C6: the reference `check_max_pix` counts entries with `|value| > trsh`
(strict), but the optimized `_check_max_pix_numba` counts `value > trsh`
without the absolute value: on the single-entry array of value −5 with
threshold 2 the reference counts 1 and the optimized counts 0. -/
theorem C6_check_max_pix_code_bug :
    PatchUtils.check_max_pix 1 1 1 fNeg 2 = 1 ∧
    _check_max_pix_numba 1 1 1 fNeg 2 = 0 ∧
    (∀ (Nt Ny Nx : ℕ) (f : Arr3) (trsh : ℚ),
      PatchUtils.check_max_pix Nt Ny Nx f trsh =
        ((List.range Nt).flatMap (fun t => (List.range Ny).flatMap (fun i =>
          (List.range Nx).map (fun j => f t i j)))).countP
          (fun x => decide (trsh < |x|))) := by
  refine ⟨by decide, by decide, ?_⟩
  intro Nt Ny Nx f trsh
  unfold PatchUtils.check_max_pix
  simp only [npAbs_eq_abs]

/-- C7: the reference `time_difference` and `time_derivative` return the
elementwise absolute difference of consecutive time steps, but the optimized
numba kernels return the signed difference: on a 1×1 signal stepping 5 → 2
the reference gives 3 while both optimized kernels give −3. -/
theorem C7_time_diff_code_bug :
    PatchUtils.time_difference sfDrop 0 0 0 = 3 ∧
    PatchUtils.time_derivative sfDrop 0 0 0 = 3 ∧
    _time_difference_numba sfDrop 0 0 0 = -3 ∧
    _time_derivative_numba sfDrop 0 0 0 = -3 ∧
    (∀ (sf : Arr3) (t i j : ℕ),
      PatchUtils.time_difference sf t i j = |sf (t + 1) i j - sf t i j| ∧
      PatchUtils.time_derivative sf t i j = |sf (t + 1) i j - sf t i j|) := by
  refine ⟨by decide, by decide, by decide, by decide, ?_⟩
  intro sf t i j
  exact ⟨npAbs_eq_abs _, npAbs_eq_abs _⟩

/-- C1: the parity contract fails on the detection flag, at an input where
both instantiations of the decision function actually complete. On the
3-frame 4×4 video all of whose pixels drop 10 → 0 → 0, with window 1 (a 4×4
patch grid, so the unconditional `report_movie_stats` diagnostics succeed on
both sides — the first two conjuncts), motion threshold 5, motion count
threshold 1, sensitivity 0 and patch-count threshold 0, the decision function
returns flag 0 with the reference patch utilities (the motion gate fires on
the 16 absolute differences of 10) but flag 1 with the optimized ones (the
signed numba differences evade the abs-less count and validation then
succeeds). The returned wsMin maps agree at every patch of this run, and
agree as whole maps on every input and configuration on which the
reference-instantiated function completes. -/
theorem C1_parity_code_bug :
    OptimizedSmokeDetector.diagnostics_ok_ref sSpike 3 4 4 ∧
    OptimizedSmokeDetector.diagnostics_ok_opt sSpike 3 4 4 ∧
    (OptimizedSmokeDetector.check_video_for_smoke3b refPatchUtils sSpike 3 4 4 vSpike).1 = 0 ∧
    (OptimizedSmokeDetector.check_video_for_smoke3b optPatchUtils sSpike 3 4 4 vSpike).1 = 1 ∧
    (∀ i j : ℕ,
      i < nPatches 4 sSpike.sliding_window → j < nPatches 4 sSpike.sliding_window →
      (OptimizedSmokeDetector.check_video_for_smoke3b refPatchUtils sSpike 3 4 4 vSpike).2 i j =
        (OptimizedSmokeDetector.check_video_for_smoke3b optPatchUtils sSpike 3 4 4 vSpike).2 i j) ∧
    (∀ (s : Settings) (Nt Ny Nx : ℕ) (video : Arr3),
      3 ≤ Nt → OptimizedSmokeDetector.diagnostics_ok_ref s Nt Ny Nx →
      (OptimizedSmokeDetector.check_video_for_smoke3b refPatchUtils s Nt Ny Nx video).2 =
        (OptimizedSmokeDetector.check_video_for_smoke3b optPatchUtils s Nt Ny Nx video).2) := by
  refine ⟨⟨by decide, by decide, by decide⟩, ⟨by decide, by decide, by decide⟩,
    by decide, by decide, ?_, ?_⟩
  · intro i j _ _
    rw [check_video_for_smoke3b_snd, check_video_for_smoke3b_snd, ref_opt_ww_eq,
      ref_opt_min_over_time_eq]
  · intro s Nt Ny Nx video _ _
    rw [check_video_for_smoke3b_snd, check_video_for_smoke3b_snd, ref_opt_ww_eq,
      ref_opt_min_over_time_eq]

/-- C1 witness: the wsMin-agreement parts of the parity theorem applied at
patch (0, 0) of the failing run and at the failing configuration itself, with
the bound and completion hypotheses discharged concretely. -/
theorem C1_parity_code_bug_witness :
    (OptimizedSmokeDetector.check_video_for_smoke3b refPatchUtils sSpike 3 4 4 vSpike).2 0 0 =
      (OptimizedSmokeDetector.check_video_for_smoke3b optPatchUtils sSpike 3 4 4 vSpike).2 0 0 ∧
    (OptimizedSmokeDetector.check_video_for_smoke3b refPatchUtils sSpike 3 4 4 vSpike).2 =
      (OptimizedSmokeDetector.check_video_for_smoke3b optPatchUtils sSpike 3 4 4 vSpike).2 :=
  ⟨C1_parity_code_bug.2.2.2.2.1 0 0 (by decide) (by decide),
   C1_parity_code_bug.2.2.2.2.2 sSpike 3 4 4 vSpike (by decide)
     ⟨by decide, by decide, by decide⟩⟩

/-- C9 counterexample: on the all-zero 1×1 video, with
`motion_count_threshold = 0` the motion gate fires (motion count 0 ≥ 0) and
the outcome is NO_SMOKE; raising the threshold to 1 un-gates the run,
split-window validation executes (every minimum distance is 0 ≥
`sensitivity_val` = 0, and 1 > `n_patches_validate` = 0 patches qualify in
both halves) and the outcome becomes SMOKE. Increasing the threshold thus
turns a gate-caused NO_SMOKE into SMOKE. -/
theorem C9_counterexample :
    sGate.motion_count_threshold ≤
      optPatchUtils.check_max_pix 2 1 1 (optPatchUtils.time_difference vZero)
        sGate.motion_threshold ∧
    (OptimizedSmokeDetector.check_video_for_smoke3b optPatchUtils sGate 3 1 1 vZero).1 = 0 ∧
    sGate.motion_count_threshold < (setMotionCountThreshold sGate 1).motion_count_threshold ∧
    (OptimizedSmokeDetector.check_video_for_smoke3b optPatchUtils
      (setMotionCountThreshold sGate 1) 3 1 1 vZero).1 = 1 :=
  ⟨by decide, by decide, by decide, by decide⟩

/-- C9 amended: the detection flag is monotone nondecreasing in
`motion_count_threshold` — increasing the threshold never turns a SMOKE
outcome into NO_SMOKE (it can only relax the gate; a gate-caused NO_SMOKE may
lawfully become SMOKE, contrary to the claim's direction). -/
theorem C9_amended_gate_monotone (pu : PatchUtilsAPI) (s : Settings)
    (τ τ' : ℕ) (Nt Ny Nx : ℕ) (video : Arr3) (h : τ ≤ τ') :
    (OptimizedSmokeDetector.check_video_for_smoke3b pu
        (setMotionCountThreshold s τ) Nt Ny Nx video).1 ≤
      (OptimizedSmokeDetector.check_video_for_smoke3b pu
        (setMotionCountThreshold s τ') Nt Ny Nx video).1 := by
  unfold OptimizedSmokeDetector.check_video_for_smoke3b setMotionCountThreshold
  by_cases hmc : pu.check_max_pix (Nt - 1) Ny Nx (pu.time_difference video)
      s.motion_threshold < τ
  · rw [if_pos hmc, if_pos (lt_of_lt_of_le hmc h)]
  · rw [if_neg hmc]
    exact Nat.zero_le _

/-- C9 witness: the monotonicity theorem applied at the concrete gate-flip
configuration (thresholds 0 ≤ 1, all-zero 1×1 video). -/
theorem C9_amended_gate_monotone_witness :
    (OptimizedSmokeDetector.check_video_for_smoke3b optPatchUtils
        (setMotionCountThreshold sGate 0) 3 1 1 vZero).1 ≤
      (OptimizedSmokeDetector.check_video_for_smoke3b optPatchUtils
        (setMotionCountThreshold sGate 1) 3 1 1 vZero).1 :=
  C9_amended_gate_monotone optPatchUtils sGate 0 1 3 1 1 vZero (by decide)

/-- C3: when the motion count is at least `motion_count_threshold`, the
optimized decision function returns flag 0 without split-window validation,
and its returned map is still the full-sequence minimum over time of the
pairwise-distance array — the same map the validation path returns under any
configuration sharing the sliding window. -/
theorem C3_motion_gate_short_circuit (s : Settings) (Nt Ny Nx : ℕ)
    (video : Arr3) (hNt : 2 ≤ Nt)
    (hgate : s.motion_count_threshold ≤
      optPatchUtils.check_max_pix (Nt - 1) Ny Nx
        (optPatchUtils.time_difference video) s.motion_threshold) :
    (OptimizedSmokeDetector.check_video_for_smoke3b optPatchUtils s Nt Ny Nx video).1 = 0 ∧
    (∀ i j : ℕ,
      (OptimizedSmokeDetector.check_video_for_smoke3b optPatchUtils s Nt Ny Nx video).2 i j =
        (Finset.range (Nt - 1)).inf' ⟨0, Finset.mem_range.mpr (by omega)⟩
          (fun t =>
            optPatchUtils.compute_patches_ww_diff_all video Nt s.sliding_window t i j)) ∧
    (∀ s' : Settings, s'.sliding_window = s.sliding_window →
      (OptimizedSmokeDetector.check_video_for_smoke3b optPatchUtils s' Nt Ny Nx video).2 =
        (OptimizedSmokeDetector.check_video_for_smoke3b optPatchUtils s Nt Ny Nx video).2) := by
  refine ⟨?_, ?_, ?_⟩
  · unfold OptimizedSmokeDetector.check_video_for_smoke3b
    rw [if_neg (not_lt.mpr hgate)]
  · intro i j
    rw [check_video_for_smoke3b_snd]
    exact foldl_npMin_map_range
      (fun t => optPatchUtils.compute_patches_ww_diff_all video Nt s.sliding_window t i j)
      (Nt - 1) (by omega)
  · intro s' hs
    rw [check_video_for_smoke3b_snd, check_video_for_smoke3b_snd, hs]

/-- C3 witness: the gate theorem applied to the all-zero 1×1 two-frame video
with `motion_count_threshold = 0` (the gate fires vacuously). -/
theorem C3_witness :
    (OptimizedSmokeDetector.check_video_for_smoke3b optPatchUtils sGate 2 1 1 vZero).1 = 0 :=
  (C3_motion_gate_short_circuit sGate 2 1 1 vZero (by decide) (by decide)).1

/-- C4: the original decision function returns `None` whenever
`settings.verbose ≤ 1`, and performs the split-window validation and returns
the `(flag, wsMin)` pair exactly when `settings.verbose > 1`. -/
theorem C4_verbose_gated_return (s : Settings) (Nt Ny Nx : ℕ) (video : Arr3) :
    (s.verbose ≤ 1 → SmokeDetector.check_video_for_smoke3b s Nt Ny Nx video = none) ∧
    (1 < s.verbose →
      SmokeDetector.check_video_for_smoke3b s Nt Ny Nx video =
        some
          ((if s.n_patches_validate <
                countGE (nPatches Ny s.sliding_window) (nPatches Nx s.sliding_window)
                  (PatchUtils.compute_min_over_time ((Nt - 1) / 2)
                    (PatchUtils.compute_patches_ww_diff_all video Nt s.sliding_window))
                  s.sensitivity_val ∧
              s.n_patches_validate <
                countGE (nPatches Ny s.sliding_window) (nPatches Nx s.sliding_window)
                  (PatchUtils.compute_min_over_time ((Nt - 1) - (Nt - 1) / 2)
                    (fun t i j =>
                      PatchUtils.compute_patches_ww_diff_all video Nt s.sliding_window
                        ((Nt - 1) / 2 + t) i j))
                  s.sensitivity_val
            then 1 else 0),
           PatchUtils.compute_min_over_time (Nt - 1)
             (PatchUtils.compute_patches_ww_diff_all video Nt s.sliding_window))) := by
  constructor
  · intro h
    unfold SmokeDetector.check_video_for_smoke3b
    rw [if_neg (by omega)]
  · intro h
    unfold SmokeDetector.check_video_for_smoke3b
    rw [if_pos h]

/-- C4 witness: at `verbose = 0` the original decision function returns
`None`; at `verbose = 2` it returns a value. -/
theorem C4_witness :
    SmokeDetector.check_video_for_smoke3b sSpike 3 1 1 vZero = none ∧
    (SmokeDetector.check_video_for_smoke3b sVerbose2 3 1 1 vZero).isSome = true := by
  constructor
  · exact (C4_verbose_gated_return sSpike 3 1 1 vZero).1 (by decide)
  · rw [(C4_verbose_gated_return sVerbose2 3 1 1 vZero).2 (by decide)]
    rfl

/-- C5: starting from a fresh buffer of capacity `N > 0`, fewer than `N`
pushes for a camera leave `get_sequence` returning `None`; exactly `N` pushes
return the `N` pushed frames in order; and one further push returns a ready
sequence with the oldest frame evicted and the other `N − 1` frames retained
in order, followed by the new frame (FIFO sliding window). -/
theorem C5_buffer_readiness (α : Type) (cid : String) (N : ℕ)
    (frames : List α) (g : α) (hN : 0 < N) :
    (frames.length < N →
      GrayscaleBuffer.get_sequence
        (GrayscaleBuffer.push_all (GrayscaleBuffer.empty α N) cid frames) cid = none) ∧
    (frames.length = N →
      GrayscaleBuffer.get_sequence
        (GrayscaleBuffer.push_all (GrayscaleBuffer.empty α N) cid frames) cid =
        some frames) ∧
    (frames.length = N →
      GrayscaleBuffer.get_sequence
        (GrayscaleBuffer.push_all (GrayscaleBuffer.empty α N) cid (frames ++ [g])) cid =
        some (frames.drop 1 ++ [g])) := by
  have hml : ∀ fs : List α,
      (GrayscaleBuffer.push_all (GrayscaleBuffer.empty α N) cid fs).maxlen = N :=
    fun fs => push_all_maxlen cid fs _
  have hcontents : ∀ (f : α) (fs : List α), 1 + fs.length ≤ N →
      (GrayscaleBuffer.push_all (GrayscaleBuffer.empty α N) cid (f :: fs)).buffers cid =
        some (f :: fs) := by
    intro f fs hlen
    rw [push_all_from_empty, dequeAppend_of_lt N [] f
        (by simp only [List.length_nil]; omega)]
    simp only [List.nil_append]
    rw [pushListFrames_of_le N fs [f]
        (by simp only [List.length_cons, List.length_nil]; omega)]
    rfl
  refine ⟨?_, ?_, ?_⟩
  · intro hlt
    cases frames with
    | nil => rfl
    | cons f fs =>
      have hc := hcontents f fs (by
        simp only [List.length_cons] at hlt
        omega)
      unfold GrayscaleBuffer.get_sequence
      rw [hc, hml]
      show (if (f :: fs).length = N then some (f :: fs) else none) = none
      rw [if_neg (by
        simp only [List.length_cons] at hlt ⊢
        omega)]
  · intro hlen
    cases frames with
    | nil => exact absurd hlen (by simp only [List.length_nil]; omega)
    | cons f fs =>
      have hc := hcontents f fs (by
        simp only [List.length_cons] at hlen
        omega)
      unfold GrayscaleBuffer.get_sequence
      rw [hc, hml]
      show (if (f :: fs).length = N then some (f :: fs) else none) = some (f :: fs)
      rw [if_pos hlen]
  · intro hlen
    cases frames with
    | nil => exact absurd hlen (by simp only [List.length_nil]; omega)
    | cons f fs =>
      have hc1 :
          (GrayscaleBuffer.push_all (GrayscaleBuffer.empty α N) cid
            ((f :: fs) ++ [g])).buffers cid =
          some (fs ++ [g]) := by
        show (GrayscaleBuffer.push_all (GrayscaleBuffer.empty α N) cid
            (f :: (fs ++ [g]))).buffers cid = some (fs ++ [g])
        rw [push_all_from_empty, dequeAppend_of_lt N [] f
            (by simp only [List.length_nil]; omega)]
        simp only [List.nil_append]
        rw [pushListFrames_snoc, pushListFrames_of_le N fs [f]
            (by simp only [List.length_cons, List.length_nil]
                simp only [List.length_cons] at hlen
                omega)]
        simp only [List.singleton_append]
        rw [dequeAppend_of_full N (f :: fs) g hN hlen]
        rfl
      unfold GrayscaleBuffer.get_sequence
      rw [hc1, hml]
      show (if (fs ++ [g]).length = N then some (fs ++ [g]) else none) =
        some ((f :: fs).drop 1 ++ [g])
      rw [if_pos (by
        simp only [List.length_append, List.length_cons, List.length_nil] at hlen ⊢
        omega)]
      rfl

/-- C5 witness: capacity 2, camera "cam": one push is not ready, two pushes
return `[1, 2]`, a third push returns `[2, 3]` with frame 1 evicted. -/
theorem C5_buffer_readiness_witness :
    GrayscaleBuffer.get_sequence
      (GrayscaleBuffer.push_all (GrayscaleBuffer.empty ℕ 2) "cam" [1]) "cam" = none ∧
    GrayscaleBuffer.get_sequence
      (GrayscaleBuffer.push_all (GrayscaleBuffer.empty ℕ 2) "cam" [1, 2]) "cam" =
      some [1, 2] ∧
    GrayscaleBuffer.get_sequence
      (GrayscaleBuffer.push_all (GrayscaleBuffer.empty ℕ 2) "cam" ([1, 2] ++ [3])) "cam" =
      some ([1, 2].drop 1 ++ [3]) :=
  ⟨(C5_buffer_readiness ℕ "cam" 2 [1] 3 (by decide)).1 (by decide),
   (C5_buffer_readiness ℕ "cam" 2 [1, 2] 3 (by decide)).2.1 (by decide),
   (C5_buffer_readiness ℕ "cam" 2 [1, 2] 3 (by decide)).2.2 (by decide)⟩

/-- C10: both monitor-phase frame comparisons are symmetric in the reference
and current frame, in the original methods and in the numba kernels: the
per-patch distances (`sortedL1` after sorting, resp. the absolute mean
difference) are symmetric, so flag and panel agree under swapping. -/
theorem C10_compare_frames_symmetric (Ny Nx : ℕ) (a b : Arr2)
    (sensitivity : ℚ) (sw : ℕ) :
    SmokeDetector.compare_frames_ww Ny Nx a b sensitivity sw =
      SmokeDetector.compare_frames_ww Ny Nx b a sensitivity sw ∧
    SmokeDetector.compare_frames_mean Ny Nx a b sensitivity sw =
      SmokeDetector.compare_frames_mean Ny Nx b a sensitivity sw ∧
    _compare_frames_ww_numba Ny Nx a b sensitivity sw =
      _compare_frames_ww_numba Ny Nx b a sensitivity sw ∧
    _compare_frames_mean_numba Ny Nx a b sensitivity sw =
      _compare_frames_mean_numba Ny Nx b a sensitivity sw := by
  have hww : ∀ ii jj : ℕ,
      sortedL1 (patch2List b ii jj sw) (patch2List a ii jj sw) =
        sortedL1 (patch2List a ii jj sw) (patch2List b ii jj sw) :=
    fun ii jj => sortedL1_comm _ _
  have hmean : ∀ ii jj : ℕ,
      npAbs ((patch2List b ii jj sw).sum / ((sw : ℚ) ^ 2) -
          (patch2List a ii jj sw).sum / ((sw : ℚ) ^ 2)) =
        npAbs ((patch2List a ii jj sw).sum / ((sw : ℚ) ^ 2) -
          (patch2List b ii jj sw).sum / ((sw : ℚ) ^ 2)) :=
    fun ii jj => npAbs_sub_comm _ _
  refine ⟨?_, ?_, ?_, ?_⟩
  · unfold SmokeDetector.compare_frames_ww
    simp only [hww]
  · unfold SmokeDetector.compare_frames_mean
    simp only [hmean]
  · unfold _compare_frames_ww_numba
    simp only [hww]
  · unfold _compare_frames_mean_numba
    simp only [hmean]

/-- C8 counterexample: on the 4×4 frame with pixel value `4*i + j`, at the
1-pixel-border interior point `(i, j) = (2, 1)` (row `Ny - 2`), the reference
`video_spatial_difference` returns 1/2 — its row band stops at `Ny - 3`, so
the x-gradient contribution is zero there — while the claimed formula
`0.5 * (|gx| + |gy|)` with both central differences divided by 2 gives 5/2. -/
theorem C8_counterexample :
    PatchUtils.video_spatial_difference 4 4 vRamp4 0 2 1 ≠
      (1 / 2) * (|(vRamp4 0 3 1 - vRamp4 0 1 1) / 2| +
                 |(vRamp4 0 2 2 - vRamp4 0 2 0) / 2|) := by
  have hL : PatchUtils.video_spatial_difference 4 4 vRamp4 0 2 1 = 1 / 2 := by decide
  have hR : (1 / 2 : ℚ) * (|(vRamp4 0 3 1 - vRamp4 0 1 1) / 2| +
      |(vRamp4 0 2 2 - vRamp4 0 2 0) / 2|) = 5 / 2 := by
    norm_num [vRamp4]
  rw [hL, hR]
  norm_num

/-- C8 amended: the reference combines `0.5 * (|gx| + |gy|)` with halved
central differences, but its gradient bands are rows `1 .. Ny-3` and columns
`1 .. Nx-3` (a 2-pixel zero band at the bottom/right, not a 1-pixel border):
on the claimed-interior row `Ny - 2` the x-contribution vanishes. The
optimized kernel instead computes, on the full 1-pixel-border interior, the
nonnegative Euclidean magnitude `sqrt(dx² + dy²)` of the undivided central
differences. -/
theorem C8_amended_spatial_difference :
    (∀ (Ny Nx : ℕ) (sf : Arr3) (k i j : ℕ),
      1 ≤ i → i + 3 ≤ Ny → 1 ≤ j → j + 3 ≤ Nx →
      PatchUtils.video_spatial_difference Ny Nx sf k i j =
        (1 / 2) * (|(sf k (i + 1) j - sf k (i - 1) j) / 2| +
                   |(sf k i (j + 1) - sf k i (j - 1)) / 2|)) ∧
    (∀ (Ny Nx : ℕ) (sf : Arr3) (k j : ℕ), 4 ≤ Ny →
      PatchUtils.video_spatial_difference Ny Nx sf k (Ny - 2) j =
        (1 / 2) * |if 1 ≤ j ∧ j + 3 ≤ Nx then
          (sf k (Ny - 2) (j + 1) - sf k (Ny - 2) (j - 1)) / 2 else 0|) ∧
    (∀ (Ny Nx : ℕ) (sf : Arr3) (t i j : ℕ),
      1 ≤ i → i + 2 ≤ Ny → 1 ≤ j → j + 2 ≤ Nx →
      (_video_spatial_difference_numba Ny Nx sf t i j) ^ 2 =
          ((sf t i (j + 1) - sf t i (j - 1) : ℚ) : ℝ) ^ 2 +
          ((sf t (i + 1) j - sf t (i - 1) j : ℚ) : ℝ) ^ 2 ∧
        0 ≤ _video_spatial_difference_numba Ny Nx sf t i j) := by
  refine ⟨?_, ?_, ?_⟩
  · intro Ny Nx sf k i j h1 h2 h3 h4
    unfold PatchUtils.video_spatial_difference
    rw [if_pos ⟨h1, h2⟩, if_pos ⟨h3, h4⟩, npAbs_eq_abs, npAbs_eq_abs]
  · intro Ny Nx sf k j hNy
    unfold PatchUtils.video_spatial_difference
    rw [if_neg (by omega), npAbs_eq_abs, npAbs_eq_abs, abs_zero, zero_add]
  · intro Ny Nx sf t i j h1 h2 h3 h4
    unfold _video_spatial_difference_numba
    rw [if_pos ⟨h1, h2, h3, h4⟩]
    exact ⟨Real.sq_sqrt (by positivity), Real.sqrt_nonneg _⟩

/-- C8 witness: the amended characterization applied at concrete interior,
bottom-band and optimized-interior points of the 4×4 ramp frame. -/
theorem C8_amended_spatial_difference_witness :
    PatchUtils.video_spatial_difference 4 4 vRamp4 0 1 1 =
      (1 / 2) * (|(vRamp4 0 2 1 - vRamp4 0 0 1) / 2| +
                 |(vRamp4 0 1 2 - vRamp4 0 1 0) / 2|) ∧
    PatchUtils.video_spatial_difference 4 4 vRamp4 0 (4 - 2) 1 =
      (1 / 2) * |if 1 ≤ 1 ∧ 1 + 3 ≤ 4 then
        (vRamp4 0 (4 - 2) (1 + 1) - vRamp4 0 (4 - 2) (1 - 1)) / 2 else 0| ∧
    (_video_spatial_difference_numba 4 4 vRamp4 0 1 1) ^ 2 =
        ((vRamp4 0 1 2 - vRamp4 0 1 0 : ℚ) : ℝ) ^ 2 +
        ((vRamp4 0 2 1 - vRamp4 0 0 1 : ℚ) : ℝ) ^ 2 ∧
      0 ≤ _video_spatial_difference_numba 4 4 vRamp4 0 1 1 :=
  ⟨C8_amended_spatial_difference.1 4 4 vRamp4 0 1 1
      (by decide) (by decide) (by decide) (by decide),
   C8_amended_spatial_difference.2.1 4 4 vRamp4 0 1 (by decide),
   C8_amended_spatial_difference.2.2 4 4 vRamp4 0 1 1
      (by decide) (by decide) (by decide) (by decide)⟩

/-- C2: for a sequence of `Nt ≥ 3` frames that passes the motion gate, the
optimized decision function returns flag 1 exactly when, in both temporal
halves of the pairwise-distance array (time indices `[0, ⌊(Nt-1)/2⌋)` and
`[⌊(Nt-1)/2⌋, Nt-1)`), the number of patches whose minimum distance over that
half is at least `sensitivity_val` strictly exceeds `n_patches_validate`. -/
theorem C2_split_window_decision (s : Settings) (Nt Ny Nx : ℕ) (video : Arr3)
    (hNt : 3 ≤ Nt)
    (hgate : optPatchUtils.check_max_pix (Nt - 1) Ny Nx
        (optPatchUtils.time_difference video) s.motion_threshold <
      s.motion_count_threshold) :
    (OptimizedSmokeDetector.check_video_for_smoke3b optPatchUtils s Nt Ny Nx video).1 = 1 ↔
      (s.n_patches_validate <
          (((Finset.range (nPatches Ny s.sliding_window)) ×ˢ
            (Finset.range (nPatches Nx s.sliding_window))).filter (fun q =>
              s.sensitivity_val ≤
                (Finset.range ((Nt - 1) / 2)).inf'
                  ⟨0, Finset.mem_range.mpr (by omega)⟩
                  (fun t => optPatchUtils.compute_patches_ww_diff_all video Nt
                    s.sliding_window t q.1 q.2))).card ∧
        s.n_patches_validate <
          (((Finset.range (nPatches Ny s.sliding_window)) ×ˢ
            (Finset.range (nPatches Nx s.sliding_window))).filter (fun q =>
              s.sensitivity_val ≤
                (Finset.Ico ((Nt - 1) / 2) (Nt - 1)).inf'
                  ⟨(Nt - 1) / 2, Finset.mem_Ico.mpr ⟨le_refl _, by omega⟩⟩
                  (fun t => optPatchUtils.compute_patches_ww_diff_all video Nt
                    s.sliding_window t q.1 q.2))).card) := by
  have hk : 0 < (Nt - 1) / 2 := by omega
  have hnk : 0 < (Nt - 1) - (Nt - 1) / 2 := by omega
  have hklt : (Nt - 1) / 2 < Nt - 1 := by omega
  have hA : ∀ i j : ℕ,
      optPatchUtils.compute_min_over_time ((Nt - 1) / 2)
          (optPatchUtils.compute_patches_ww_diff_all video Nt s.sliding_window) i j =
        (Finset.range ((Nt - 1) / 2)).inf' ⟨0, Finset.mem_range.mpr hk⟩
          (fun t => optPatchUtils.compute_patches_ww_diff_all video Nt
            s.sliding_window t i j) := by
    intro i j
    exact foldl_npMin_map_range
      (fun t => optPatchUtils.compute_patches_ww_diff_all video Nt s.sliding_window t i j)
      ((Nt - 1) / 2) hk
  have hB : ∀ i j : ℕ,
      optPatchUtils.compute_min_over_time ((Nt - 1) - (Nt - 1) / 2)
          (fun t i j => optPatchUtils.compute_patches_ww_diff_all video Nt
            s.sliding_window ((Nt - 1) / 2 + t) i j) i j =
        (Finset.Ico ((Nt - 1) / 2) (Nt - 1)).inf'
          ⟨(Nt - 1) / 2, Finset.mem_Ico.mpr ⟨le_refl _, hklt⟩⟩
          (fun t => optPatchUtils.compute_patches_ww_diff_all video Nt
            s.sliding_window t i j) := by
    intro i j
    rw [inf'_Ico_eq_shift
      (fun t => optPatchUtils.compute_patches_ww_diff_all video Nt s.sliding_window t i j)
      ((Nt - 1) / 2) (Nt - 1) hklt]
    exact foldl_npMin_map_range
      (fun t => optPatchUtils.compute_patches_ww_diff_all video Nt
        s.sliding_window ((Nt - 1) / 2 + t) i j)
      ((Nt - 1) - (Nt - 1) / 2) hnk
  have hcardA :
      countGE (nPatches Ny s.sliding_window) (nPatches Nx s.sliding_window)
          (optPatchUtils.compute_min_over_time ((Nt - 1) / 2)
            (optPatchUtils.compute_patches_ww_diff_all video Nt s.sliding_window))
          s.sensitivity_val =
        (((Finset.range (nPatches Ny s.sliding_window)) ×ˢ
          (Finset.range (nPatches Nx s.sliding_window))).filter (fun q =>
            s.sensitivity_val ≤
              (Finset.range ((Nt - 1) / 2)).inf' ⟨0, Finset.mem_range.mpr hk⟩
                (fun t => optPatchUtils.compute_patches_ww_diff_all video Nt
                  s.sliding_window t q.1 q.2))).card := by
    rw [countGE_eq_card]
    congr 1
    apply Finset.filter_congr
    intro q _
    rw [hA q.1 q.2]
  have hcardB :
      countGE (nPatches Ny s.sliding_window) (nPatches Nx s.sliding_window)
          (optPatchUtils.compute_min_over_time ((Nt - 1) - (Nt - 1) / 2)
            (fun t i j => optPatchUtils.compute_patches_ww_diff_all video Nt
              s.sliding_window ((Nt - 1) / 2 + t) i j))
          s.sensitivity_val =
        (((Finset.range (nPatches Ny s.sliding_window)) ×ˢ
          (Finset.range (nPatches Nx s.sliding_window))).filter (fun q =>
            s.sensitivity_val ≤
              (Finset.Ico ((Nt - 1) / 2) (Nt - 1)).inf'
                ⟨(Nt - 1) / 2, Finset.mem_Ico.mpr ⟨le_refl _, hklt⟩⟩
                (fun t => optPatchUtils.compute_patches_ww_diff_all video Nt
                  s.sliding_window t q.1 q.2))).card := by
    rw [countGE_eq_card]
    congr 1
    apply Finset.filter_congr
    intro q _
    rw [hB q.1 q.2]
  unfold OptimizedSmokeDetector.check_video_for_smoke3b
  rw [if_pos hgate]
  dsimp only
  rw [ite_one_zero_eq_one_iff, hcardA, hcardB]

/-- C2 witness: the decision characterization instantiated on the all-zero
1×1 three-frame video with `sSpike` (which passes the motion gate), with both
gate hypotheses discharged concretely. -/
theorem C2_split_window_decision_witness :
    3 ≤ 3 ∧
    optPatchUtils.check_max_pix (3 - 1) 1 1 (optPatchUtils.time_difference vZero)
        sSpike.motion_threshold < sSpike.motion_count_threshold ∧
    ((OptimizedSmokeDetector.check_video_for_smoke3b optPatchUtils sSpike 3 1 1 vZero).1 = 1 ↔
      (sSpike.n_patches_validate <
          (((Finset.range (nPatches 1 sSpike.sliding_window)) ×ˢ
            (Finset.range (nPatches 1 sSpike.sliding_window))).filter (fun q =>
              sSpike.sensitivity_val ≤
                (Finset.range ((3 - 1) / 2)).inf'
                  ⟨0, Finset.mem_range.mpr (by decide)⟩
                  (fun t => optPatchUtils.compute_patches_ww_diff_all vZero 3
                    sSpike.sliding_window t q.1 q.2))).card ∧
        sSpike.n_patches_validate <
          (((Finset.range (nPatches 1 sSpike.sliding_window)) ×ˢ
            (Finset.range (nPatches 1 sSpike.sliding_window))).filter (fun q =>
              sSpike.sensitivity_val ≤
                (Finset.Ico ((3 - 1) / 2) (3 - 1)).inf'
                  ⟨(3 - 1) / 2, Finset.mem_Ico.mpr ⟨le_refl _, by decide⟩⟩
                  (fun t => optPatchUtils.compute_patches_ww_diff_all vZero 3
                    sSpike.sliding_window t q.1 q.2))).card)) :=
  ⟨by decide, by decide,
   C2_split_window_decision sSpike 3 1 1 vZero (by decide) (by decide)⟩
